import Mathlib

set_option maxRecDepth 8000

/-!
Shallow embedding of the ai2mysql-mcp-server repository (Go).

Embedded source files:
* `pkg/db/db.go` — the database gateway (`DBManager.Query`, `DBManager.Execute`,
  `DBManager.GetDB`), in namespace `Db`;
* `cmd/ai2mysql-mcp-server/mcp_server.go` — the stdio JSON-RPC dispatcher and the
  two tool handlers, in namespace `Srv`;
* the go-mcp based server (`handleQuery` / `handleExecute`), in namespace `GoMcp`.

The MySQL backend (`database/sql`) is abstracted as oracle functions; every
embedded operation additionally returns the list of SQL strings it dispatched to
the backend, so that "the statement never reaches the backend" is expressible.
-/

/-- Character predicate of Go `unicode.IsSpace`, restricted to the Latin-1 code
points Go special-cases (space, tab, newline, vertical tab, form feed, carriage
return, NEL, NBSP).  Wider Unicode space classes are not modelled. -/
def goIsSpace (c : Char) : Bool :=
  c == ' ' || c == '\t' || c == '\n' || c == '\r' ||
  c == Char.ofNat 11 || c == Char.ofNat 12 || c == Char.ofNat 0x85 || c == Char.ofNat 0xA0

/-- Go `strings.TrimSpace`: drop leading and trailing white space. -/
def goTrimSpace (s : String) : String :=
  ⟨((s.data.dropWhile goIsSpace).reverse.dropWhile goIsSpace).reverse⟩

/-- Go `strings.ToLower` (ASCII case mapping; the embedded SQL keywords are ASCII). -/
def goToLower (s : String) : String := ⟨s.data.map Char.toLower⟩

/-- Go `strings.ToUpper` (ASCII case mapping). -/
def goToUpper (s : String) : String := ⟨s.data.map Char.toUpper⟩

/-- Go `strings.HasPrefix s pre`. -/
def goHasPrefix (s pre : String) : Bool := pre.data.isPrefixOf s.data

/-- JSON values, as decoded by Go `encoding/json` into `interface` values /
raw messages.  Object fields keep their textual order; the Go decoder processes
duplicate keys left to right, which the decoding functions below mirror. -/
inductive JValue where
  | null : JValue
  | bool (b : Bool) : JValue
  | num (n : Int) : JValue
  | str (s : String) : JValue
  | arr (elems : List JValue) : JValue
  | obj (fields : List (String × JValue)) : JValue

/-- Dynamically typed cell values delivered by the `database/sql` backend
(`interface` values filled in by `rows.Scan`).  `bytesV s` is a `byte` slice
whose Go string conversion is `s`. -/
inductive SqlValue where
  | nullV : SqlValue
  | intV (i : Int) : SqlValue
  | boolV (b : Bool) : SqlValue
  | strV (s : String) : SqlValue
  | bytesV (s : String) : SqlValue
deriving DecidableEq

/-- Cell conversion performed in `pkg/db/db.go` lines 137–150: `nil` stays `nil`,
a byte slice becomes `string(v)`, every other value passes through unchanged. -/
def convertValue : SqlValue → SqlValue
  | .bytesV s => .strV s
  | v => v

namespace Db

/-- Model of `config.Permission` (pkg/config/config.go): the four permission flags. -/
structure Permission where
  allowQuery : Bool
  allowInsert : Bool
  allowUpdate : Bool
  allowDelete : Bool
deriving DecidableEq

/-- Outcome of a backend `db.Exec` call: the values and error outcomes of
`result.RowsAffected()` and `result.LastInsertId()`. -/
structure ExecOutcome where
  rowsAffectedVal : Int
  rowsAffectedErr : Option String
  lastInsertIDVal : Int
  lastInsertIDErr : Option String

/-- A backend cursor (`*sql.Rows`): the outcome of `rows.Columns()`, the
per-row `rows.Scan` outcomes in cursor order, and the final `rows.Err()`. -/
structure Cursor where
  columns : Except String (List String)
  rows : List (Except String (List SqlValue))
  finalErr : Option String

/-- The backend handle (`*sql.DB`), abstracted as oracles for `db.Query` and
`db.Exec`. -/
structure SqlDB where
  queryFn : String → Except String Cursor
  execFn : String → Except String ExecOutcome

/-- Model of `db.DBManager`: the named-connection map plus the permission part of the
configuration it consults (the only part of `config.Config` used by
`Query`/`Execute`). -/
structure DBManager where
  connections : List (String × SqlDB)
  permission : Permission

/-- Errors produced by the gateway.  In Go these are plain `error` values
created at distinct sites; the constructor records the site, `message` the
`err.Error()` string forwarded to callers. -/
inductive DBError where
  | permissionDenied (msg : String) : DBError
  | connectionNotFound (msg : String) : DBError
  | backendError (msg : String) : DBError
deriving DecidableEq

/-- Message, as by `err.Error()`, of a `DBError`. -/
def DBError.message : DBError → String
  | .permissionDenied m => m
  | .connectionNotFound m => m
  | .backendError m => m

/-- Model of `db.QueryResult` (db.go lines 20–24); the `Error` field is modelled by the
`Except` error channel of `Query`. -/
structure QueryResult where
  columns : List String
  rows : List (List SqlValue)
deriving DecidableEq

/-- Model of `db.ExecuteResult` (db.go lines 27–31); the `Error` field is modelled by the
`Except` error channel of `Execute`. -/
structure ExecuteResult where
  rowsAffected : Int
  lastInsertID : Int
deriving DecidableEq

/-- Model of `DBManager.GetDB` (db.go lines 80–86). -/
def DBManager.GetDB (m : DBManager) (name : String) : Except DBError SqlDB :=
  match m.connections.lookup name with
  | some db => .ok db
  | none => .error (.connectionNotFound ("数据库 " ++ name ++ " 未配置"))

/-- The row-materialisation loop of `DBManager.Query` (db.go lines 119–153):
convert each successfully scanned row and append it in cursor order; the first
scan failure aborts, discarding all rows. -/
def scanRows : List (Except String (List SqlValue)) → Except String (List (List SqlValue))
  | [] => .ok []
  | .error e :: _ => .error e
  | .ok values :: rest =>
    match scanRows rest with
    | .error e => .error e
    | .ok rs => .ok ((values.map convertValue) :: rs)

/-- The result processing of `DBManager.Query` after the backend `db.Query`
call (db.go lines 100–160): column retrieval, row materialisation, final
cursor-error check. -/
def queryResult (db : SqlDB) (query : String) : Except DBError QueryResult :=
  match db.queryFn query with
  | .error e => .error (.backendError e)
  | .ok cursor =>
    match cursor.columns with
    | .error e => .error (.backendError e)
    | .ok cols =>
      match scanRows cursor.rows with
      | .error e => .error (.backendError e)
      | .ok rs =>
        match cursor.finalErr with
        | some e => .error (.backendError e)
        | none => .ok ⟨cols, rs⟩

/-- Model of `DBManager.Query` (db.go lines 89–161).  Second component: the SQL strings
dispatched to the backend (`db.Query` calls; exactly one once the permission
gate and the connection lookup pass). -/
def DBManager.Query (m : DBManager) (dbName query : String) :
    Except DBError QueryResult × List String :=
  if !m.permission.allowQuery then
    (.error (.permissionDenied "查询操作未被允许"), [])
  else
    match m.GetDB dbName with
    | .error e => (.error e, [])
    | .ok db => (queryResult db query, [query])

/-- The result processing of `DBManager.Execute` after the backend `db.Exec`
call (db.go lines 188–208): `RowsAffected()` and `LastInsertId()`, each failure
returned as an error. -/
def execResult (db : SqlDB) (query : String) : Except DBError ExecuteResult :=
  match db.execFn query with
  | .error e => .error (.backendError e)
  | .ok outcome =>
    match outcome.rowsAffectedErr with
    | some e => .error (.backendError e)
    | none =>
      match outcome.lastInsertIDErr with
      | some e => .error (.backendError e)
      | none => .ok ⟨outcome.rowsAffectedVal, outcome.lastInsertIDVal⟩

/-- The backend half of `DBManager.Execute` (db.go lines 182–208): connection
lookup, then the `db.Exec` dispatch and its result processing. -/
def execBackend (m : DBManager) (dbName query : String) :
    Except DBError ExecuteResult × List String :=
  match m.GetDB dbName with
  | .error e => (.error e, [])
  | .ok db => (execResult db query, [query])

/-- Model of `DBManager.Execute` (db.go lines 164–209): permission gating on the leading
keyword of the lower-cased, trimmed statement, then dispatch.  There is no
DROP/TRUNCATE branch in this function.  Second component: the SQL strings
dispatched to the backend (`db.Exec` calls). -/
def DBManager.Execute (m : DBManager) (dbName query : String) :
    Except DBError ExecuteResult × List String :=
  let lowerQuery := goTrimSpace (goToLower query)
  if goHasPrefix lowerQuery "insert" then
    if !m.permission.allowInsert then
      (.error (.permissionDenied "插入操作未被允许"), [])
    else
      execBackend m dbName query
  else if goHasPrefix lowerQuery "update" then
    if !m.permission.allowUpdate then
      (.error (.permissionDenied "更新操作未被允许"), [])
    else
      execBackend m dbName query
  else if goHasPrefix lowerQuery "delete" then
    if !m.permission.allowDelete then
      (.error (.permissionDenied "删除操作未被允许"), [])
    else
      execBackend m dbName query
  else
    execBackend m dbName query

end Db

namespace GoMcp

/-!
Embedding of the tool handlers of the go-mcp based server (`handleQuery` and
`handleExecute`).  The global `db *sql.DB` is passed as an explicit `Db.SqlDB`
oracle; `request.Arguments` (a decoded JSON object, `map` from string to
`interface` value) is passed as an association list with unique keys, looked up
with `List.lookup`.  Logging (`logEnabled` branches) is not modelled.
-/

/-- The result-materialisation loop of `handleQuery` (rows into a list of
column-name/value maps, in cursor order): a scan failure aborts with a wrapped
error, byte-slice cells become strings, other cells pass through. -/
def scanRowsMaps (columns : List String) :
    List (Except String (List SqlValue)) → Except String (List (List (String × SqlValue)))
  | [] => .ok []
  | .error e :: _ => .error ("failed to read row data: " ++ e)
  | .ok values :: rest =>
    match scanRowsMaps columns rest with
    | .error e => .error e
    | .ok rs => .ok ((columns.zip (values.map convertValue)) :: rs)

/-- Model of `handleQuery`: take the `sql` argument (must be a string), allow only
SELECT/SHOW/DESCRIBE prefixes of the trimmed upper-cased statement, then run the
backend query and materialise the rows.  The final JSON serialisation of the
results into the text content block is not modelled; the structured results list
is returned instead.  Second component: SQL strings dispatched to the backend. -/
def handleQuery (be : Db.SqlDB) (args : List (String × JValue)) :
    Except String (List (List (String × SqlValue))) × List String :=
  match args.lookup "sql" with
  | some (.str sql) =>
    let sqlUpper := goTrimSpace (goToUpper sql)
    if !goHasPrefix sqlUpper "SELECT" && !goHasPrefix sqlUpper "SHOW" &&
        !goHasPrefix sqlUpper "DESCRIBE" then
      (.error "only SELECT, SHOW, or DESCRIBE queries are allowed", [])
    else
      match be.queryFn sql with
      | .error e => (.error ("query execution error: " ++ e), [sql])
      | .ok cursor =>
        match cursor.columns with
        | .error e => (.error ("failed to get column names: " ++ e), [sql])
        | .ok columns =>
          match scanRowsMaps columns cursor.rows with
          | .error e => (.error e, [sql])
          | .ok results =>
            match cursor.finalErr with
            | some e => (.error ("error iterating through results: " ++ e), [sql])
            | none => (.ok results, [sql])
  | _ => (.error "sql must be a string", [])

/-- Model of `handleExecute`: take the `sql` argument (must be a string); reject
INSERT/UPDATE/DELETE prefixes whose flag is off, then reject DROP/TRUNCATE
prefixes unconditionally, then dispatch `db.Exec`.  The success payload is the
`lastInsertId`/`rowsAffected` pair (its JSON serialisation is not modelled);
errors of `LastInsertId()`/`RowsAffected()` are discarded with `_` in the source,
so only the values are read.  Second component: dispatched SQL strings. -/
def handleExecute (allowInsert allowUpdate allowDelete : Bool) (be : Db.SqlDB)
    (args : List (String × JValue)) : Except String (Int × Int) × List String :=
  match args.lookup "sql" with
  | some (.str sql) =>
    let sqlUpper := goTrimSpace (goToUpper sql)
    if goHasPrefix sqlUpper "INSERT" && !allowInsert then
      (.error "no INSERT permission", [])
    else if goHasPrefix sqlUpper "UPDATE" && !allowUpdate then
      (.error "no UPDATE permission", [])
    else if goHasPrefix sqlUpper "DELETE" && !allowDelete then
      (.error "no DELETE permission", [])
    else if goHasPrefix sqlUpper "DROP" || goHasPrefix sqlUpper "TRUNCATE" then
      (.error "DROP or TRUNCATE operations are not allowed", [])
    else
      match be.execFn sql with
      | .error e => (.error ("SQL execution error: " ++ e), [sql])
      | .ok outcome => (.ok (outcome.lastInsertIDVal, outcome.rowsAffectedVal), [sql])
  | _ => (.error "sql must be a string", [])

end GoMcp

namespace Srv

/-!
Embedding of `cmd/ai2mysql-mcp-server/mcp_server.go`: envelope and payload
types, the Go `encoding/json` decoding of the parameter structs, the tool
handlers, the message dispatcher and the run loop.  Writing and flushing of the
output stream always succeed in the model (for the envelopes this server
builds, `json.Marshal` cannot fail); logging is not modelled.
-/

/-- Model of `MCPError` (mcp_server.go lines 122–126). -/
structure MCPError where
  code : Int
  message : String
  data : Option JValue

/-- The `text` field of a content block: `json.MarshalIndent` output of a
gateway result.  The serialised string itself is not modelled; the value being
serialised is kept. -/
inductive ContentText where
  | queryResultJson (r : Db.QueryResult) : ContentText
  | executeResultJson (r : Db.ExecuteResult) : ContentText

/-- Model of `MCPContent` (mcp_server.go lines 146–149). -/
structure MCPContent where
  type : String
  text : ContentText

/-- Model of `MCPToolResult` (mcp_server.go lines 152–154). -/
structure MCPToolResult where
  content : List MCPContent

/-- The `Result` field of an envelope: either a plain JSON value (the
`initialize` / `tools/list` payloads built from string maps) or a tool result. -/
inductive MCPResult where
  | raw (v : JValue) : MCPResult
  | toolResult (r : MCPToolResult) : MCPResult

/-- Model of `MCPMessage` (mcp_server.go lines 112–119).  Go `nil` interface fields are
`none`; `Params` is a raw message (`none` when absent). -/
structure MCPMessage where
  jsonrpc : String
  id : Option JValue
  method : String
  params : Option JValue
  result : Option MCPResult
  error : Option MCPError

/-- Model of `sendError` composed with `sendResponse` (mcp_server.go lines 559–573): the
error envelope written to the output stream. -/
def sendErrorMsg (id : Option JValue) (code : Int) (message : String)
    (data : Option JValue) : MCPMessage :=
  { jsonrpc := "2.0", id := id, method := "", params := none,
    result := none, error := some ⟨code, message, data⟩ }

/-- A successful tool response (mcp_server.go lines 462–474 and 511–523). -/
def mkToolResponse (id : Option JValue) (text : ContentText) : MCPMessage :=
  { jsonrpc := "2.0", id := id, method := "", params := none,
    result := some (.toolResult ⟨[⟨"text", text⟩]⟩), error := none }

/-- The input schema shared by both tool manifests, with the given `sql`
description string. -/
def toolInputSchema (descr : String) : JValue :=
  .obj [("type", .str "object"),
        ("properties", .obj [("sql", .obj [("type", .str "string"),
                                           ("description", .str descr)])]),
        ("required", .arr [.str "sql"])]

/-- One tool manifest entry (name, description, type, input schema). -/
def toolManifest (name descr sqlDescr : String) : JValue :=
  .obj [("name", .str name),
        ("description", .str descr),
        ("type", .str "function"),
        ("inputSchema", toolInputSchema sqlDescr)]

/-- The `initialize` response (mcp_server.go lines 254–322). -/
def initializeResponse (id : Option JValue) : MCPMessage :=
  { jsonrpc := "2.0", id := id, method := "", params := none,
    result := some (.raw (.obj
      [("protocolVersion", .str "2024-11-05"),
       ("serverInfo", .obj [("name", .str "MySQL MCP Server"),
                            ("version", .str "1.0.0")]),
       ("capabilities", .obj
         [("tools", .obj
           [("mcp_mysql_query",
             toolManifest "mcp_mysql_query" "执行MySQL查询（只读，SELECT语句）"
               "要执行的SQL查询语句"),
            ("mcp_mysql_execute",
             toolManifest "mcp_mysql_execute" "执行MySQL更新操作（INSERT/UPDATE/DELETE等非查询语句）"
               "要执行的SQL语句")])])])),
    error := none }

/-- The `tools/list` response (mcp_server.go lines 325–376). -/
def toolsListResponse (id : Option JValue) : MCPMessage :=
  { jsonrpc := "2.0", id := id, method := "", params := none,
    result := some (.raw (.obj
      [("tools", .arr
        [toolManifest "mcp_mysql_query" "执行MySQL查询（只读，SELECT语句）"
           "要执行的SQL查询语句",
         toolManifest "mcp_mysql_execute" "执行MySQL更新操作（INSERT/UPDATE/DELETE等非查询语句）"
           "要执行的SQL语句"])])),
    error := none }

/-- Decoding error for a `sql` field whose JSON value is neither a string nor
null (Go `encoding/json` type mismatch on `SQLParams.SQL`). -/
def sqlFieldTypeError : String :=
  "json: cannot unmarshal value into Go struct field SQLParams.sql of type string"

/-- Field-by-field decoding of a JSON object into `SQLParams` (mcp_server.go
lines 141–143), mirroring Go `encoding/json`: fields are processed in textual
order (later duplicates overwrite), a JSON null leaves the field unchanged, a
non-string value is a type error, unknown keys are ignored. -/
def decodeSQLFields : List (String × JValue) → String → Except String String
  | [], acc => .ok acc
  | (k, v) :: rest, acc =>
    if k == "sql" then
      match v with
      | .str s => decodeSQLFields rest s
      | .null => decodeSQLFields rest acc
      | _ => .error sqlFieldTypeError
    else decodeSQLFields rest acc

/-- Model of `json.Unmarshal(rawParams, &sqlParams)` for `SQLParams`: a nil raw message
fails, JSON null leaves the zero value (empty string), an object is decoded
field by field, any other JSON value is a type error. -/
def decodeSQLParams : Option JValue → Except String String
  | none => .error "unexpected end of JSON input"
  | some .null => .ok ""
  | some (.obj fields) => decodeSQLFields fields ""
  | some _ => .error "json: cannot unmarshal value into Go value of type main.SQLParams"

/-- The decoded form shared by `ToolCallParams` (name + `arguments` raw message,
mcp_server.go lines 135–138) and `ToolParams` (name + `params` raw message,
lines 129–132): the tool name and the undecoded raw message of the payload key. -/
structure ToolCallParams where
  name : String
  arguments : Option JValue

/-- Field-by-field decoding of a JSON object into the name/raw-message shape;
`rawKey` is `arguments` for `ToolCallParams` and `params` for `ToolParams`.
A raw-message field accepts any JSON value undecoded. -/
def decodeToolFields (rawKey : String) :
    List (String × JValue) → ToolCallParams → Except String ToolCallParams
  | [], acc => .ok acc
  | (k, v) :: rest, acc =>
    if k == "name" then
      match v with
      | .str s => decodeToolFields rawKey rest { acc with name := s }
      | .null => decodeToolFields rawKey rest acc
      | _ => .error "json: cannot unmarshal value into Go struct field name of type string"
    else if k == rawKey then
      decodeToolFields rawKey rest { acc with arguments := some v }
    else decodeToolFields rawKey rest acc

/-- Model of `json.Unmarshal(message.Params, ...)` into the name/raw-message shape. -/
def decodeToolShape (rawKey : String) : Option JValue → Except String ToolCallParams
  | none => .error "unexpected end of JSON input"
  | some .null => .ok ⟨"", none⟩
  | some (.obj fields) => decodeToolFields rawKey fields ⟨"", none⟩
  | some _ => .error "json: cannot unmarshal value into Go tool params struct"

/-- A call into the database gateway (`s.dbManager.Query` / `s.dbManager.Execute`),
with the connection label and SQL text passed. -/
inductive GatewayCall where
  | query (dbName sql : String) : GatewayCall
  | exec (dbName sql : String) : GatewayCall
deriving DecidableEq

/-- Observable output of a handler: the envelopes written to the output stream,
the gateway calls made, and the SQL strings the gateway dispatched to the
backend. -/
structure HOut where
  responses : List MCPMessage
  gatewayCalls : List GatewayCall
  backendCalls : List String

/-- Model of `handleMySQLQuery` (mcp_server.go lines 424–477).  `s.config.Permission` is
the same configuration the `DBManager` holds, modelled by `m.permission`. -/
def handleMySQLQuery (m : Db.DBManager) (id : Option JValue)
    (rawParams : Option JValue) : HOut :=
  if !m.permission.allowQuery then
    ⟨[sendErrorMsg id (-32000) "查询操作未被允许" none], [], []⟩
  else
    match decodeSQLParams rawParams with
    | .error e => ⟨[sendErrorMsg id (-32602) "无效SQL参数" (some (.str e))], [], []⟩
    | .ok sql =>
      let out := m.Query "default" sql
      match out.1 with
      | .error err => ⟨[sendErrorMsg id (-32000) err.message none], [.query "default" sql], out.2⟩
      | .ok result =>
        ⟨[mkToolResponse id (.queryResultJson result)], [.query "default" sql], out.2⟩

/-- Model of `handleMySQLExecute` (mcp_server.go lines 480–526). -/
def handleMySQLExecute (m : Db.DBManager) (id : Option JValue)
    (rawParams : Option JValue) : HOut :=
  match decodeSQLParams rawParams with
  | .error e => ⟨[sendErrorMsg id (-32602) "无效SQL参数" (some (.str e))], [], []⟩
  | .ok sql =>
    let out := m.Execute "default" sql
    match out.1 with
    | .error err => ⟨[sendErrorMsg id (-32000) err.message none], [.exec "default" sql], out.2⟩
    | .ok result =>
      ⟨[mkToolResponse id (.executeResultJson result)], [.exec "default" sql], out.2⟩

/-- Model of `handleCallTool` (mcp_server.go lines 379–421): decode the nested tool
name and raw payload — the `tools/call` shape uses the `arguments` key, the
`mcp/callTool` shape the `params` key — then dispatch by tool name. -/
def handleCallTool (m : Db.DBManager) (message : MCPMessage) : HOut :=
  let parsed :=
    if message.method == "tools/call" then decodeToolShape "arguments" message.params
    else decodeToolShape "params" message.params
  match parsed with
  | .error e => ⟨[sendErrorMsg message.id (-32602) "无效参数" (some (.str e))], [], []⟩
  | .ok params =>
    match params.name with
    | "mcp_mysql_query" => handleMySQLQuery m message.id params.arguments
    | "mcp_mysql_execute" => handleMySQLExecute m message.id params.arguments
    | other => ⟨[sendErrorMsg message.id (-32601) "不支持的工具" (some (.str other))], [], []⟩

/-- Model of `handleMessage` (mcp_server.go lines 225–251): route by method; the
`initialized` notification case replies nothing, unknown methods get a
method-not-supported error. -/
def handleMessage (m : Db.DBManager) (message : MCPMessage) : HOut :=
  match message.method with
  | "initialize" => ⟨[initializeResponse message.id], [], []⟩
  | "initialized" => ⟨[], [], []⟩
  | "tools/list" => ⟨[toolsListResponse message.id], [], []⟩
  | "mcp/callTool" => handleCallTool m message
  | "tools/call" => handleCallTool m message
  | other => ⟨[sendErrorMsg message.id (-32601) "方法不支持" (some (.str other))], [], []⟩

/-- How the input stream ends after the last complete line: clean end of
stream (`io.EOF`) or a read failure with a driver message. -/
inductive StreamEnd where
  | eof : StreamEnd
  | readErr (msg : String) : StreamEnd
deriving DecidableEq

/-- Observable output of the run loop: everything the handlers produced plus
the return value of the loop itself (`nil` on clean end of stream, the wrapped read
error otherwise). -/
structure RunOut where
  responses : List MCPMessage
  gatewayCalls : List GatewayCall
  backendCalls : List String
  outcome : Except String Unit

/-- Model of `Run` (mcp_server.go lines 182–222): read newline-terminated lines until
the stream ends; `json.Unmarshal` of a line is abstracted as the `parse`
oracle; a parse failure emits one `-32700` error envelope with nil id and the
loop continues; a parsed message is dispatched to `handleMessage`.  A trailing
incomplete line returned together with the terminal read error is discarded by
the source, so only complete lines appear in `lines`. -/
def runLoop (m : Db.DBManager) (parse : String → Except String MCPMessage)
    (lines : List String) (ending : StreamEnd) : RunOut :=
  match lines with
  | [] =>
    match ending with
    | .eof => ⟨[], [], [], .ok ()⟩
    | .readErr e => ⟨[], [], [], .error ("读取请求失败: " ++ e)⟩
  | line :: rest =>
    match parse line with
    | .error e =>
      let r := runLoop m parse rest ending
      ⟨sendErrorMsg none (-32700) "解析JSON失败" (some (.str e)) :: r.responses,
        r.gatewayCalls, r.backendCalls, r.outcome⟩
    | .ok message =>
      let h := handleMessage m message
      let r := runLoop m parse rest ending
      ⟨h.responses ++ r.responses, h.gatewayCalls ++ r.gatewayCalls,
        h.backendCalls ++ r.backendCalls, r.outcome⟩

end Srv

/-- A fixed backend handle used for concrete evaluations: one column `c`, no
rows, and an `exec` outcome of one affected row. -/
def testDB : Db.SqlDB where
  queryFn := fun _ => .ok ⟨.ok ["c"], [], none⟩
  execFn := fun _ => .ok ⟨1, none, 0, none⟩

/-- A gateway with the single connection `default` over `testDB` and all four
permission flags true. -/
def testManagerAllTrue : Db.DBManager where
  connections := [("default", testDB)]
  permission := ⟨true, true, true, true⟩

/-! Helper lemmas. -/

/-- Prefixes of the same string are comparable, so a string with prefix `p`
cannot also have prefix `q` when neither of `p` and `q` is a prefix of the
other. -/
theorem goHasPrefix_false_of_incomp {s p q : String}
    (hpre : goHasPrefix s p = true)
    (h1 : goHasPrefix p q = false) (h2 : goHasPrefix q p = false) :
    goHasPrefix s q = false := by
  unfold goHasPrefix at *
  by_contra hq
  rw [Bool.not_eq_false] at hq
  have hp' := List.isPrefixOf_iff_prefix.mp hpre
  have hq' := List.isPrefixOf_iff_prefix.mp hq
  rcases List.prefix_or_prefix_of_prefix hq' hp' with h | h
  · rw [ List.isPrefixOf_iff_prefix.mpr h] at h1
    exact Bool.noConfusion h1
  · rw [ List.isPrefixOf_iff_prefix.mpr h] at h2
    exact Bool.noConfusion h2

/-- Once the connection lookup succeeds, `Execute` dispatches exactly the given
statement to the backend, whatever the exec outcome. -/
theorem execBackend_calls {m : Db.DBManager} {dbName : String} (q : String)
    {db' : Db.SqlDB} (h : m.connections.lookup dbName = some db') :
    (Db.execBackend m dbName q).2 = [q] := by
  unfold Db.execBackend Db.DBManager.GetDB
  rw [h]

/-- Lemma: `queryResult` never produces a permission error: every failure after the
backend call is a `backendError`. -/
theorem queryResult_ne_perm (db : Db.SqlDB) (q msg : String) :
    Db.queryResult db q ≠ .error (.permissionDenied msg) := by
  unfold Db.queryResult
  split
  next => simp
  next =>
    split
    next => simp
    next =>
      split
      next => simp
      next => split <;> simp

/-- C2: the read gate of `DBManager.Query` fires, before any backend call,
exactly when `allowQuery` is false; with `allowQuery` true the result is
independent of the other three flags and is never a permission error. -/
theorem c2_read_gate (m : Db.DBManager) (dbName sql : String) :
    (m.permission.allowQuery = false →
      m.Query dbName sql = (.error (.permissionDenied "查询操作未被允许"), []))
    ∧ (m.permission.allowQuery = true → ∀ p' : Db.Permission, p'.allowQuery = true →
        Db.DBManager.Query ⟨m.connections, p'⟩ dbName sql = m.Query dbName sql)
    ∧ (m.permission.allowQuery = true →
        ∀ msg, (m.Query dbName sql).1 ≠ .error (.permissionDenied msg)) := by
  refine ⟨?_, ?_, ?_⟩
  · intro h
    unfold Db.DBManager.Query
    rw [h]
    simp
  · intro h p' h'
    unfold Db.DBManager.Query
    rw [h, h']
    rfl
  · intro h msg
    unfold Db.DBManager.Query Db.DBManager.GetDB
    rw [h]
    rw [if_neg (by simp)]
    cases hl : List.lookup dbName m.connections with
    | none => simp
    | some db => exact queryResult_ne_perm db sql msg

/-- C2 witness: with `allowQuery` off, the gate rejects `SELECT 1` without a
backend call; with it on, the same manager answers independently of the other
flags. -/
theorem c2_read_gate_witness :
    Db.DBManager.Query ⟨[("default", testDB)], ⟨false, true, true, true⟩⟩ "default" "SELECT 1"
      = (.error (.permissionDenied "查询操作未被允许"), []) :=
  (c2_read_gate ⟨[("default", testDB)], ⟨false, true, true, true⟩⟩ "default" "SELECT 1").1 rfl

/-- C3: for a statement whose trimmed, case-folded prefix is INSERT, UPDATE or
DELETE, both execute paths dispatch to the backend iff the matching flag is
true, and fail with the permission-denied error with no backend call when it is
false.  The first three conjuncts cover `DBManager.Execute` (lower-cased
classifier), the last three the go-mcp `handleExecute` (upper-cased
classifier). -/
theorem c3_mutation_gate (m : Db.DBManager) (dbName sql : String) (db' : Db.SqlDB)
    (ai au ad : Bool) (be : Db.SqlDB) (args : List (String × JValue))
    (hconn : m.connections.lookup dbName = some db')
    (hargs : args.lookup "sql" = some (.str sql)) :
    (goHasPrefix (goTrimSpace (goToLower sql)) "insert" = true →
      ((m.Execute dbName sql).2 = [sql] ↔ m.permission.allowInsert = true)
      ∧ (m.permission.allowInsert = false →
          m.Execute dbName sql = (.error (.permissionDenied "插入操作未被允许"), [])))
    ∧ (goHasPrefix (goTrimSpace (goToLower sql)) "update" = true →
      ((m.Execute dbName sql).2 = [sql] ↔ m.permission.allowUpdate = true)
      ∧ (m.permission.allowUpdate = false →
          m.Execute dbName sql = (.error (.permissionDenied "更新操作未被允许"), [])))
    ∧ (goHasPrefix (goTrimSpace (goToLower sql)) "delete" = true →
      ((m.Execute dbName sql).2 = [sql] ↔ m.permission.allowDelete = true)
      ∧ (m.permission.allowDelete = false →
          m.Execute dbName sql = (.error (.permissionDenied "删除操作未被允许"), [])))
    ∧ (goHasPrefix (goTrimSpace (goToUpper sql)) "INSERT" = true →
      ((GoMcp.handleExecute ai au ad be args).2 = [sql] ↔ ai = true)
      ∧ (ai = false →
          GoMcp.handleExecute ai au ad be args = (.error "no INSERT permission", [])))
    ∧ (goHasPrefix (goTrimSpace (goToUpper sql)) "UPDATE" = true →
      ((GoMcp.handleExecute ai au ad be args).2 = [sql] ↔ au = true)
      ∧ (au = false →
          GoMcp.handleExecute ai au ad be args = (.error "no UPDATE permission", [])))
    ∧ (goHasPrefix (goTrimSpace (goToUpper sql)) "DELETE" = true →
      ((GoMcp.handleExecute ai au ad be args).2 = [sql] ↔ ad = true)
      ∧ (ad = false →
          GoMcp.handleExecute ai au ad be args = (.error "no DELETE permission", []))) := by
  refine ⟨?_, ?_, ?_, ?_, ?_, ?_⟩
  · intro hp
    refine ⟨?_, ?_⟩
    · cases hi : m.permission.allowInsert
      · simp [Db.DBManager.Execute, hp, hi]
      · simp [Db.DBManager.Execute, hp, hi, execBackend_calls sql hconn]
    · intro hi
      simp [Db.DBManager.Execute, hp, hi]
  · intro hp
    have h1 : goHasPrefix (goTrimSpace (goToLower sql)) "insert" = false :=
      goHasPrefix_false_of_incomp hp (by decide) (by decide)
    refine ⟨?_, ?_⟩
    · cases hu : m.permission.allowUpdate
      · simp [Db.DBManager.Execute, hp, h1, hu]
      · simp [Db.DBManager.Execute, hp, h1, hu, execBackend_calls sql hconn]
    · intro hu
      simp [Db.DBManager.Execute, hp, h1, hu]
  · intro hp
    have h1 : goHasPrefix (goTrimSpace (goToLower sql)) "insert" = false :=
      goHasPrefix_false_of_incomp hp (by decide) (by decide)
    have h2 : goHasPrefix (goTrimSpace (goToLower sql)) "update" = false :=
      goHasPrefix_false_of_incomp hp (by decide) (by decide)
    refine ⟨?_, ?_⟩
    · cases hd : m.permission.allowDelete
      · simp [Db.DBManager.Execute, hp, h1, h2, hd]
      · simp [Db.DBManager.Execute, hp, h1, h2, hd, execBackend_calls sql hconn]
    · intro hd
      simp [Db.DBManager.Execute, hp, h1, h2, hd]
  · intro hp
    have h1 : goHasPrefix (goTrimSpace (goToUpper sql)) "UPDATE" = false :=
      goHasPrefix_false_of_incomp hp (by decide) (by decide)
    have h2 : goHasPrefix (goTrimSpace (goToUpper sql)) "DELETE" = false :=
      goHasPrefix_false_of_incomp hp (by decide) (by decide)
    have h3 : goHasPrefix (goTrimSpace (goToUpper sql)) "DROP" = false :=
      goHasPrefix_false_of_incomp hp (by decide) (by decide)
    have h4 : goHasPrefix (goTrimSpace (goToUpper sql)) "TRUNCATE" = false :=
      goHasPrefix_false_of_incomp hp (by decide) (by decide)
    refine ⟨?_, ?_⟩
    · cases hi : ai
      · simp [GoMcp.handleExecute, hargs, hp, hi]
      · cases hbe : be.execFn sql <;>
          simp [GoMcp.handleExecute, hargs, hp, h1, h2, h3, h4, hi, hbe]
    · intro hi
      simp [GoMcp.handleExecute, hargs, hp, hi]
  · intro hp
    have h1 : goHasPrefix (goTrimSpace (goToUpper sql)) "INSERT" = false :=
      goHasPrefix_false_of_incomp hp (by decide) (by decide)
    have h2 : goHasPrefix (goTrimSpace (goToUpper sql)) "DELETE" = false :=
      goHasPrefix_false_of_incomp hp (by decide) (by decide)
    have h3 : goHasPrefix (goTrimSpace (goToUpper sql)) "DROP" = false :=
      goHasPrefix_false_of_incomp hp (by decide) (by decide)
    have h4 : goHasPrefix (goTrimSpace (goToUpper sql)) "TRUNCATE" = false :=
      goHasPrefix_false_of_incomp hp (by decide) (by decide)
    refine ⟨?_, ?_⟩
    · cases hu : au
      · simp [GoMcp.handleExecute, hargs, hp, h1, hu]
      · cases hbe : be.execFn sql <;>
          simp [GoMcp.handleExecute, hargs, hp, h1, h2, h3, h4, hu, hbe]
    · intro hu
      simp [GoMcp.handleExecute, hargs, hp, h1, hu]
  · intro hp
    have h1 : goHasPrefix (goTrimSpace (goToUpper sql)) "INSERT" = false :=
      goHasPrefix_false_of_incomp hp (by decide) (by decide)
    have h2 : goHasPrefix (goTrimSpace (goToUpper sql)) "UPDATE" = false :=
      goHasPrefix_false_of_incomp hp (by decide) (by decide)
    have h3 : goHasPrefix (goTrimSpace (goToUpper sql)) "DROP" = false :=
      goHasPrefix_false_of_incomp hp (by decide) (by decide)
    have h4 : goHasPrefix (goTrimSpace (goToUpper sql)) "TRUNCATE" = false :=
      goHasPrefix_false_of_incomp hp (by decide) (by decide)
    refine ⟨?_, ?_⟩
    · cases hd : ad
      · simp [GoMcp.handleExecute, hargs, hp, h1, h2, hd]
      · cases hbe : be.execFn sql <;>
          simp [GoMcp.handleExecute, hargs, hp, h1, h2, h3, h4, hd, hbe]
    · intro hd
      simp [GoMcp.handleExecute, hargs, hp, h1, h2, hd]

/-- C3 witness: with all flags on, an INSERT statement is dispatched by both
paths; with `allowInsert` off alone it would be rejected (second conjunct
instantiated elsewhere in the development). -/
theorem c3_mutation_gate_witness :
    (testManagerAllTrue.Execute "default" "insert into t values (1)").2
      = ["insert into t values (1)"] :=
  (((c3_mutation_gate testManagerAllTrue "default" "insert into t values (1)" testDB
      true true true testDB [("sql", .str "insert into t values (1)")]
      rfl rfl).1) (by decide)).1.mpr rfl

/-- C1 counterexample: `DBManager.Execute` has no DROP/TRUNCATE denylist — with
all four permission flags true it dispatches `DROP TABLE t` to the backend and
returns the backend success, instead of failing with a forbidden-statement
error. -/
theorem c1_counterexample :
    (testManagerAllTrue.Execute "default" "DROP TABLE t").1
        = .ok ⟨1, 0⟩
    ∧ (testManagerAllTrue.Execute "default" "DROP TABLE t").2
        = ["DROP TABLE t"] :=
  ⟨rfl, rfl⟩

/-- C1 (amended): only the go-mcp `handleExecute` enforces the DROP/TRUNCATE
denylist — there it rejects every such statement without any backend dispatch,
regardless of the permission flags; `DBManager.Execute` performs no such check
and, once the connection lookup succeeds, dispatches the statement to the
backend whatever the flags. -/
theorem c1_amended
    (ai au ad : Bool) (be : Db.SqlDB) (args : List (String × JValue)) (sql : String)
    (conns : List (String × Db.SqlDB)) (q i u d : Bool) (dbName : String) (db' : Db.SqlDB)
    (hargs : args.lookup "sql" = some (.str sql))
    (hupper : (goHasPrefix (goTrimSpace (goToUpper sql)) "DROP"
        || goHasPrefix (goTrimSpace (goToUpper sql)) "TRUNCATE") = true)
    (hlower : (goHasPrefix (goTrimSpace (goToLower sql)) "drop"
        || goHasPrefix (goTrimSpace (goToLower sql)) "truncate") = true)
    (hconn : conns.lookup dbName = some db') :
    GoMcp.handleExecute ai au ad be args
        = (.error "DROP or TRUNCATE operations are not allowed", [])
    ∧ (Db.DBManager.Execute ⟨conns, ⟨q, i, u, d⟩⟩ dbName sql).2 = [sql] := by
  have hucases : goHasPrefix (goTrimSpace (goToUpper sql)) "DROP" = true
      ∨ goHasPrefix (goTrimSpace (goToUpper sql)) "TRUNCATE" = true := by
    cases h : goHasPrefix (goTrimSpace (goToUpper sql)) "DROP" with
    | true => exact Or.inl rfl
    | false => rw [h, Bool.false_or] at hupper; exact Or.inr hupper
  have hlcases : goHasPrefix (goTrimSpace (goToLower sql)) "drop" = true
      ∨ goHasPrefix (goTrimSpace (goToLower sql)) "truncate" = true := by
    cases h : goHasPrefix (goTrimSpace (goToLower sql)) "drop" with
    | true => exact Or.inl rfl
    | false => rw [h, Bool.false_or] at hlower; exact Or.inr hlower
  have hIns : goHasPrefix (goTrimSpace (goToUpper sql)) "INSERT" = false :=
    hucases.elim (fun h => goHasPrefix_false_of_incomp h (by decide) (by decide))
      (fun h => goHasPrefix_false_of_incomp h (by decide) (by decide))
  have hUpd : goHasPrefix (goTrimSpace (goToUpper sql)) "UPDATE" = false :=
    hucases.elim (fun h => goHasPrefix_false_of_incomp h (by decide) (by decide))
      (fun h => goHasPrefix_false_of_incomp h (by decide) (by decide))
  have hDel : goHasPrefix (goTrimSpace (goToUpper sql)) "DELETE" = false :=
    hucases.elim (fun h => goHasPrefix_false_of_incomp h (by decide) (by decide))
      (fun h => goHasPrefix_false_of_incomp h (by decide) (by decide))
  have hins : goHasPrefix (goTrimSpace (goToLower sql)) "insert" = false :=
    hlcases.elim (fun h => goHasPrefix_false_of_incomp h (by decide) (by decide))
      (fun h => goHasPrefix_false_of_incomp h (by decide) (by decide))
  have hupd : goHasPrefix (goTrimSpace (goToLower sql)) "update" = false :=
    hlcases.elim (fun h => goHasPrefix_false_of_incomp h (by decide) (by decide))
      (fun h => goHasPrefix_false_of_incomp h (by decide) (by decide))
  have hdel : goHasPrefix (goTrimSpace (goToLower sql)) "delete" = false :=
    hlcases.elim (fun h => goHasPrefix_false_of_incomp h (by decide) (by decide))
      (fun h => goHasPrefix_false_of_incomp h (by decide) (by decide))
  constructor
  · simp [GoMcp.handleExecute, hargs, hIns, hUpd, hDel, hupper]
  · simp [Db.DBManager.Execute, hins, hupd, hdel,
      @execBackend_calls ⟨conns, ⟨q, i, u, d⟩⟩ dbName sql db' hconn]

/-- C1 witness: the go-mcp `handleExecute` rejects `DROP TABLE t` with every
flag true and no backend dispatch. -/
theorem c1_amended_witness :
    GoMcp.handleExecute true true true testDB [("sql", .str "DROP TABLE t")]
      = (.error "DROP or TRUNCATE operations are not allowed", []) :=
  (c1_amended true true true testDB [("sql", .str "DROP TABLE t")] "DROP TABLE t"
    [("default", testDB)] true true true true "default" testDB
    rfl (by decide) (by decide) rfl).1

/-- C4 counterexample: the ai2mysql-mcp-server tool handlers apply no
dangerous-statement gating — with all flags true, `DROP TABLE t` reaches the
backend through both `handleMySQLQuery` and `handleMySQLExecute`. -/
theorem c4_counterexample :
    (Srv.handleMySQLQuery testManagerAllTrue (some (.num 7))
        (some (.obj [("sql", JValue.str "DROP TABLE t")]))).backendCalls
      = ["DROP TABLE t"]
    ∧ (Srv.handleMySQLExecute testManagerAllTrue (some (.num 7))
        (some (.obj [("sql", JValue.str "DROP TABLE t")]))).backendCalls
      = ["DROP TABLE t"] :=
  ⟨rfl, rfl⟩

/-- C4 (amended): dangerous-statement prefix gating is applied only by the
go-mcp handlers: the SELECT/SHOW/DESCRIBE whitelist of `handleQuery` and the
DROP/TRUNCATE denylist of `handleExecute` reject every forbidden statement
before any backend call, so no forbidden SQL reaches the backend through them;
the ai2mysql-mcp-server handlers pass the statement through unexamined. -/
theorem c4_amended (ai au ad : Bool) (be : Db.SqlDB)
    (args : List (String × JValue)) (sql : String)
    (hargs : args.lookup "sql" = some (.str sql))
    (hupper : (goHasPrefix (goTrimSpace (goToUpper sql)) "DROP"
        || goHasPrefix (goTrimSpace (goToUpper sql)) "TRUNCATE") = true) :
    GoMcp.handleQuery be args
        = (.error "only SELECT, SHOW, or DESCRIBE queries are allowed", [])
    ∧ GoMcp.handleExecute ai au ad be args
        = (.error "DROP or TRUNCATE operations are not allowed", []) := by
  have hucases : goHasPrefix (goTrimSpace (goToUpper sql)) "DROP" = true
      ∨ goHasPrefix (goTrimSpace (goToUpper sql)) "TRUNCATE" = true := by
    cases h : goHasPrefix (goTrimSpace (goToUpper sql)) "DROP" with
    | true => exact Or.inl rfl
    | false => rw [h, Bool.false_or] at hupper; exact Or.inr hupper
  have hSel : goHasPrefix (goTrimSpace (goToUpper sql)) "SELECT" = false :=
    hucases.elim (fun h => goHasPrefix_false_of_incomp h (by decide) (by decide))
      (fun h => goHasPrefix_false_of_incomp h (by decide) (by decide))
  have hShow : goHasPrefix (goTrimSpace (goToUpper sql)) "SHOW" = false :=
    hucases.elim (fun h => goHasPrefix_false_of_incomp h (by decide) (by decide))
      (fun h => goHasPrefix_false_of_incomp h (by decide) (by decide))
  have hDesc : goHasPrefix (goTrimSpace (goToUpper sql)) "DESCRIBE" = false :=
    hucases.elim (fun h => goHasPrefix_false_of_incomp h (by decide) (by decide))
      (fun h => goHasPrefix_false_of_incomp h (by decide) (by decide))
  have hIns : goHasPrefix (goTrimSpace (goToUpper sql)) "INSERT" = false :=
    hucases.elim (fun h => goHasPrefix_false_of_incomp h (by decide) (by decide))
      (fun h => goHasPrefix_false_of_incomp h (by decide) (by decide))
  have hUpd : goHasPrefix (goTrimSpace (goToUpper sql)) "UPDATE" = false :=
    hucases.elim (fun h => goHasPrefix_false_of_incomp h (by decide) (by decide))
      (fun h => goHasPrefix_false_of_incomp h (by decide) (by decide))
  have hDel : goHasPrefix (goTrimSpace (goToUpper sql)) "DELETE" = false :=
    hucases.elim (fun h => goHasPrefix_false_of_incomp h (by decide) (by decide))
      (fun h => goHasPrefix_false_of_incomp h (by decide) (by decide))
  constructor
  · simp [GoMcp.handleQuery, hargs, hSel, hShow, hDesc]
  · simp [GoMcp.handleExecute, hargs, hIns, hUpd, hDel, hupper]

/-- C4 witness: the go-mcp `handleQuery` rejects `DROP TABLE t` with no backend
dispatch. -/
theorem c4_amended_witness :
    GoMcp.handleQuery testDB [("sql", .str "DROP TABLE t")]
      = (.error "only SELECT, SHOW, or DESCRIBE queries are allowed", []) :=
  (c4_amended true true true testDB [("sql", .str "DROP TABLE t")] "DROP TABLE t"
    rfl (by decide)).1

/-- Every branch of the query tool handler writes exactly one envelope. -/
theorem handleMySQLQuery_one_response (m : Db.DBManager) (id rawParams : Option JValue) :
    (Srv.handleMySQLQuery m id rawParams).responses.length = 1 := by
  unfold Srv.handleMySQLQuery
  split
  · rfl
  · split
    · rfl
    · dsimp only
      split <;> rfl

/-- Every branch of the execute tool handler writes exactly one envelope. -/
theorem handleMySQLExecute_one_response (m : Db.DBManager) (id rawParams : Option JValue) :
    (Srv.handleMySQLExecute m id rawParams).responses.length = 1 := by
  unfold Srv.handleMySQLExecute
  split
  · rfl
  · dsimp only
    split <;> rfl

/-- Every branch of `handleCallTool` writes exactly one envelope. -/
theorem handleCallTool_one_response (m : Db.DBManager) (msg : Srv.MCPMessage) :
    (Srv.handleCallTool m msg).responses.length = 1 := by
  unfold Srv.handleCallTool
  dsimp only
  split
  · rfl
  · split
    · exact handleMySQLQuery_one_response m msg.id _
    · exact handleMySQLExecute_one_response m msg.id _
    · rfl

/-- C5 counterexample: a message with method `initialized` and an id gets no
response at all, and a notification (no id) with an unrecognized method gets
one error response — both contradict the claimed request/notification rule. -/
theorem c5_counterexample :
    (Srv.handleMessage testManagerAllTrue
        ⟨"2.0", some (.num 1), "initialized", none, none, none⟩).responses = []
    ∧ (Srv.handleMessage testManagerAllTrue
        ⟨"2.0", none, "no/such/method", none, none, none⟩).responses.length = 1 :=
  ⟨rfl, rfl⟩

/-- C5 (amended): the number of responses `handleMessage` writes is a function
of the method alone — zero for `initialized` (even when an id is present), and
exactly one for every other message, recognized or not, with or without an id. -/
theorem c5_amended (m : Db.DBManager) (msg : Srv.MCPMessage) :
    (Srv.handleMessage m msg).responses.length
      = (if msg.method = "initialized" then 0 else 1) := by
  unfold Srv.handleMessage
  split
  · simp_all
  · simp_all
  · simp_all
  · rw [handleCallTool_one_response]
    simp_all
  · rw [handleCallTool_one_response]
    simp_all
  · simp_all

/-- The return value of the run loop does not depend on the processed lines,
only on how the stream ends. -/
theorem runLoop_outcome (m : Db.DBManager) (parse : String → Except String Srv.MCPMessage)
    (lines : List String) (ending : Srv.StreamEnd) :
    (Srv.runLoop m parse lines ending).outcome
      = (Srv.runLoop m parse [] ending).outcome := by
  induction lines with
  | nil => rfl
  | cons line rest ih =>
    unfold Srv.runLoop
    cases parse line with
    | error e => exact ih
    | ok msg => exact ih

/-- C9: the run loop returns success exactly when the input stream ends with a
clean end of stream; any other read failure makes it return the wrapped read
error. -/
theorem c9_run_termination (m : Db.DBManager)
    (parse : String → Except String Srv.MCPMessage) (lines : List String) (e : String) :
    ((Srv.runLoop m parse lines .eof).outcome = Except.ok ())
    ∧ ((Srv.runLoop m parse lines (.readErr e)).outcome
        = Except.error ("读取请求失败: " ++ e))
    ∧ (∀ ending, (Srv.runLoop m parse lines ending).outcome = Except.ok ()
        → ending = .eof) := by
  refine ⟨?_, ?_, ?_⟩
  · rw [runLoop_outcome]
    rfl
  · rw [runLoop_outcome]
    rfl
  · intro ending h
    rw [runLoop_outcome] at h
    cases ending with
    | eof => rfl
    | readErr msg => simp [Srv.runLoop] at h

/-- C9 witness: a read failure after one line is propagated; a clean end of
stream after no lines yields success. -/
theorem c9_run_termination_witness :
    (Srv.runLoop testManagerAllTrue (fun _ => Except.error "bad") ["x"]
        (.readErr "boom")).outcome = Except.error ("读取请求失败: " ++ "boom")
    ∧ Srv.StreamEnd.eof = Srv.StreamEnd.eof :=
  ⟨(c9_run_termination testManagerAllTrue (fun _ => Except.error "bad") ["x"] "boom").2.1,
   (c9_run_termination testManagerAllTrue (fun _ => Except.error "bad") ["x"] "boom").2.2
     .eof rfl⟩

/-- C6: a line that fails to parse makes the loop write exactly one parse-error
envelope — code −32700, nil id — and continue with the remaining lines, leaving
the gateway and backend traces and the loop outcome those of the rest of the
stream. -/
theorem c6_parse_error (m : Db.DBManager)
    (parse : String → Except String Srv.MCPMessage) (line e : String)
    (rest : List String) (ending : Srv.StreamEnd)
    (h : parse line = .error e) :
    Srv.runLoop m parse (line :: rest) ending
      = ⟨Srv.sendErrorMsg none (-32700) "解析JSON失败" (some (.str e))
            :: (Srv.runLoop m parse rest ending).responses,
         (Srv.runLoop m parse rest ending).gatewayCalls,
         (Srv.runLoop m parse rest ending).backendCalls,
         (Srv.runLoop m parse rest ending).outcome⟩
    ∧ (Srv.sendErrorMsg none (-32700) "解析JSON失败" (some (.str e))).id = none
    ∧ (Srv.sendErrorMsg none (-32700) "解析JSON失败" (some (.str e))).error
        = some ⟨-32700, "解析JSON失败", some (.str e)⟩ := by
  refine ⟨?_, rfl, rfl⟩
  simp only [Srv.runLoop, h]

/-- C6 witness: one malformed line before a clean end of stream yields exactly
the parse-error envelope and a successful loop return. -/
theorem c6_parse_error_witness :
    Srv.runLoop testManagerAllTrue (fun _ => Except.error "bad") ["x"] .eof
      = ⟨[Srv.sendErrorMsg none (-32700) "解析JSON失败" (some (.str "bad"))],
         [], [], .ok ()⟩ :=
  ((c6_parse_error testManagerAllTrue (fun _ => Except.error "bad") "x" "bad" []
      .eof rfl).1).trans rfl

/-- Decoding a JSON object with no `sql` key leaves the accumulated field value
unchanged. -/
theorem decodeSQLFields_no_sql (fields : List (String × JValue)) (acc : String)
    (h : ∀ kv ∈ fields, kv.1 ≠ "sql") :
    Srv.decodeSQLFields fields acc = .ok acc := by
  induction fields with
  | nil => rfl
  | cons kv rest ih =>
    obtain ⟨k, v⟩ := kv
    have h1 : k ≠ "sql" := h (k, v) (List.mem_cons_self _ _)
    have hb : (k == "sql") = false := beq_eq_false_iff_ne.mpr h1
    unfold Srv.decodeSQLFields
    rw [if_neg (by simp [hb])]
    exact ih fun kv hm => h kv (List.mem_cons_of_mem _ hm)

/-- C7 counterexample: a tool call whose arguments object has no `sql` key is
not rejected with −32602 — the execute handler decodes the empty string and
calls the gateway, answering with a success envelope. -/
theorem c7_counterexample :
    (Srv.handleMySQLExecute testManagerAllTrue (some (.num 9))
        (some (.obj []))).gatewayCalls = [Srv.GatewayCall.exec "default" ""]
    ∧ ((Srv.handleMySQLExecute testManagerAllTrue (some (.num 9))
        (some (.obj []))).responses.map (fun r => r.error)) = [none] :=
  ⟨rfl, rfl⟩

/-- C7 (amended): the handlers answer −32602 and skip the gateway exactly when
`SQLParams` decoding fails (for the query handler, once its permission gate has
passed); a `sql` value that is neither a string nor null fails decoding, while
a missing or null `sql` decodes to the empty string and proceeds. -/
theorem c7_amended (m : Db.DBManager) (id raw : Option JValue) (e : String) (v : JValue) :
    (Srv.decodeSQLParams raw = .error e →
      Srv.handleMySQLExecute m id raw
        = ⟨[Srv.sendErrorMsg id (-32602) "无效SQL参数" (some (.str e))], [], []⟩
      ∧ (m.permission.allowQuery = true →
          Srv.handleMySQLQuery m id raw
            = ⟨[Srv.sendErrorMsg id (-32602) "无效SQL参数" (some (.str e))], [], []⟩))
    ∧ ((∀ s, v ≠ .str s) → v ≠ .null →
        Srv.decodeSQLParams (some (.obj [("sql", v)])) = .error Srv.sqlFieldTypeError) := by
  constructor
  · intro hd
    constructor
    · unfold Srv.handleMySQLExecute
      rw [hd]
    · intro hq
      unfold Srv.handleMySQLQuery
      rw [hq]
      rw [if_neg (by simp)]
      rw [hd]
  · intro hs hn
    cases v with
    | null => exact absurd rfl hn
    | str s => exact absurd rfl (hs s)
    | bool b => rfl
    | num n => rfl
    | arr l => rfl
    | obj f => rfl

/-- C7 witness: a nil raw message is rejected with −32602 and no gateway call;
a numeric `sql` value fails decoding with the type error. -/
theorem c7_amended_witness :
    Srv.handleMySQLExecute testManagerAllTrue (some (.num 2)) none
      = ⟨[Srv.sendErrorMsg (some (.num 2)) (-32602) "无效SQL参数"
            (some (.str "unexpected end of JSON input"))], [], []⟩
    ∧ Srv.decodeSQLParams (some (.obj [("sql", .num 1)]))
        = .error Srv.sqlFieldTypeError :=
  ⟨((c7_amended testManagerAllTrue (some (.num 2)) none
      "unexpected end of JSON input" (.num 1)).1 rfl).1,
   (c7_amended testManagerAllTrue (some (.num 2)) none
      "unexpected end of JSON input" (.num 1)).2
     (fun _ h => JValue.noConfusion h) (fun h => JValue.noConfusion h)⟩

/-- C10: arguments decoding as a JSON object without a `sql` key yields the
empty string, and both handlers pass the empty statement to the gateway on the
`default` connection (the query handler once its permission gate has passed)
instead of rejecting the request. -/
theorem c10_missing_sql (m : Db.DBManager) (id : Option JValue)
    (fields : List (String × JValue)) (h : ∀ kv ∈ fields, kv.1 ≠ "sql") :
    Srv.decodeSQLParams (some (.obj fields)) = .ok ""
    ∧ (Srv.handleMySQLExecute m id (some (.obj fields))).gatewayCalls
        = [Srv.GatewayCall.exec "default" ""]
    ∧ (m.permission.allowQuery = true →
        (Srv.handleMySQLQuery m id (some (.obj fields))).gatewayCalls
          = [Srv.GatewayCall.query "default" ""]) := by
  have hdec : Srv.decodeSQLParams (some (.obj fields)) = .ok "" := by
    show Srv.decodeSQLFields fields "" = .ok ""
    exact decodeSQLFields_no_sql fields "" h
  refine ⟨hdec, ?_, ?_⟩
  · unfold Srv.handleMySQLExecute
    rw [hdec]
    dsimp only
    split <;> rfl
  · intro hq
    unfold Srv.handleMySQLQuery
    rw [hq]
    rw [if_neg (by simp)]
    rw [hdec]
    dsimp only
    split <;> rfl

/-- C10 witness: an arguments object with only an unrelated key makes both
handlers call the gateway with the empty SQL string. -/
theorem c10_missing_sql_witness :
    (Srv.handleMySQLExecute testManagerAllTrue none
        (some (.obj [("other", JValue.null)]))).gatewayCalls
      = [Srv.GatewayCall.exec "default" ""]
    ∧ (Srv.handleMySQLQuery testManagerAllTrue none
        (some (.obj [("other", JValue.null)]))).gatewayCalls
      = [Srv.GatewayCall.query "default" ""] :=
  have h : ∀ kv ∈ [("other", JValue.null)], kv.1 ≠ "sql" := by
    intro kv hm
    rw [List.mem_singleton] at hm
    subst hm
    decide
  ⟨(c10_missing_sql testManagerAllTrue none [("other", JValue.null)] h).2.1,
   (c10_missing_sql testManagerAllTrue none [("other", JValue.null)] h).2.2 rfl⟩

/-- When every scan succeeds, the materialisation loop converts each row in
cursor order. -/
theorem scanRows_map_ok (scanned : List (List SqlValue)) :
    Db.scanRows (scanned.map Except.ok)
      = .ok (scanned.map (fun r => r.map convertValue)) := by
  induction scanned with
  | nil => rfl
  | cons r rest ih => simp [Db.scanRows, ih]

/-- A scan failure aborts the materialisation loop with that error, discarding
every row. -/
theorem scanRows_abort (pre : List (List SqlValue)) (e : String)
    (rest : List (Except String (List SqlValue))) :
    Db.scanRows (pre.map Except.ok ++ .error e :: rest) = .error e := by
  induction pre with
  | nil => rfl
  | cons r prest ih => simp [Db.scanRows, ih]

/-- A backend whose cursor delivers two columns and one row holding an integer
and a byte-string cell. -/
def testRowsDB : Db.SqlDB where
  queryFn := fun _ =>
    .ok ⟨.ok ["a", "b"], [Except.ok [SqlValue.intV 1, SqlValue.bytesV "x"]], none⟩
  execFn := fun _ => .ok ⟨1, none, 0, none⟩

/-- C8: a successful query materialises exactly the rows of the backend cursor in
cursor order, one converted cell per delivered cell — byte strings decoded to
text, null, numbers, booleans and strings passed through unchanged — and a
scan failure anywhere aborts the whole query with that error instead of
returning a row subset. -/
theorem c8_query_materialisation (m : Db.DBManager) (dbName sql : String)
    (db' : Db.SqlDB) (cols : List String) (scanned pre : List (List SqlValue))
    (e : String) (rest : List (Except String (List SqlValue))) (fe : Option String)
    (hq : m.permission.allowQuery = true)
    (hconn : m.connections.lookup dbName = some db') :
    (db'.queryFn sql = .ok ⟨.ok cols, scanned.map Except.ok, none⟩ →
      m.Query dbName sql
        = (.ok ⟨cols, scanned.map (fun r => r.map convertValue)⟩, [sql]))
    ∧ (db'.queryFn sql = .ok ⟨.ok cols, pre.map Except.ok ++ .error e :: rest, fe⟩ →
      m.Query dbName sql = (.error (.backendError e), [sql]))
    ∧ (∀ s, convertValue (.bytesV s) = .strV s)
    ∧ convertValue .nullV = .nullV
    ∧ (∀ n, convertValue (.intV n) = .intV n)
    ∧ (∀ b, convertValue (.boolV b) = .boolV b)
    ∧ (∀ s, convertValue (.strV s) = .strV s) := by
  refine ⟨?_, ?_, fun _ => rfl, rfl, fun _ => rfl, fun _ => rfl, fun _ => rfl⟩
  · intro hbe
    simp [Db.DBManager.Query, Db.DBManager.GetDB, Db.queryResult, hq, hconn, hbe,
      scanRows_map_ok]
  · intro hbe
    simp [Db.DBManager.Query, Db.DBManager.GetDB, Db.queryResult, hq, hconn, hbe,
      scanRows_abort]

/-- C8 witness: the one-row cursor materialises to one row with the byte-string
cell decoded to text and the integer cell unchanged. -/
theorem c8_query_materialisation_witness :
    Db.DBManager.Query ⟨[("default", testRowsDB)], ⟨true, false, false, false⟩⟩
        "default" "SELECT * FROM t"
      = (.ok ⟨["a", "b"], [[SqlValue.intV 1, SqlValue.strV "x"]]⟩,
         ["SELECT * FROM t"]) :=
  ((c8_query_materialisation
      ⟨[("default", testRowsDB)], ⟨true, false, false, false⟩⟩ "default"
      "SELECT * FROM t" testRowsDB ["a", "b"]
      [[SqlValue.intV 1, SqlValue.bytesV "x"]] [] "e" [] none rfl rfl).1 rfl).trans rfl
